import Mathlib

/-
Verification of the process-path dashboard (src/app.py) against its design
specification. The file embeds the display pipeline of app.py as executable
Lean definitions: the result-ranking stage (lines 76-80), the chart stage
(lines 88-95), the path selector (lines 107-111), the path tokenizer
(line 120), the chain-graph construction loop (lines 118-127) and the
layout call (line 130). Theorems at the end settle the specification
claims against these definitions.
-/

namespace MarkovApp

/-- One row of the result table returned by the analysis pipeline, restricted
to the two columns the display code interprets: `path` and `threat_score`.
Scores are modelled as integers; the ordering-related claims do not depend on
the numeric domain. -/
structure AnalysisRow where
  path : String
  threat_score : Int
deriving DecidableEq, Repr

/-- The result table handed to the display stages. `hasPath` / `hasScore`
record whether the corresponding column is present in the schema; column
access on an absent column raises a pandas `KeyError`. -/
structure ResultFrame where
  hasPath : Bool
  hasScore : Bool
  rows : List AnalysisRow
deriving DecidableEq, Repr

/-- A Python exception as far as the display flow distinguishes them. -/
inductive PyError where
  | keyError (col : String)
deriving DecidableEq, Repr

/-- One insertion step of a stable ascending insertion sort by `threat_score`:
an element is placed before the first entry of equal or larger score, so
that, folding from the right, every element ends up before its equal-score
ties from later list positions. This models a stable ascending argsort,
which is what numpy delivers in the regimes pandas relies on: the default
introsort runs plain insertion sort below its small-array cutoff, and the
mergesort and stable kinds are stable at every size. -/
def insertAsc (x : AnalysisRow) : List AnalysisRow → List AnalysisRow
  | [] => [x]
  | y :: ys =>
    if x.threat_score ≤ y.threat_score then x :: y :: ys else y :: insertAsc x ys

/-- Stable ascending sort by `threat_score` (insertion sort). -/
def argsortAsc (rows : List AnalysisRow) : List AnalysisRow :=
  rows.foldr insertAsc []

/-- Embedding of `results.sort_values("threat_score", ascending=False)`
(app.py lines 77 and 90). `pandas.core.sorting.nargsort` computes a
descending sort, since the fix for pandas issue 6399, by reversing the
values and their indices first (`non_nans = non_nans[::-1]` and
`non_nan_idx = non_nan_idx[::-1]`), taking an ascending argsort of the
reversed values, and reversing the resulting indexer again
(`indexer = indexer[::-1]`). The two reversals cancel on ties: rows of
equal score keep their original input order, so the descending sort is
stable. -/
def sort_values_desc (rows : List AnalysisRow) : List AnalysisRow :=
  (argsortAsc rows.reverse).reverse

/-- The rows of the ranked tabular view: descending sort then `.head(50)`
(app.py line 77). -/
def tableRows (df : ResultFrame) : List AnalysisRow :=
  (sort_values_desc df.rows).take 50

/-- The ranking stage of app.py line 77 with its error behaviour: sorting a
frame that lacks the `threat_score` column raises `KeyError`, and that call
is not wrapped in any handler. -/
def sortValuesChecked (df : ResultFrame) : Except PyError (List AnalysisRow) :=
  if df.hasScore then .ok (sort_values_desc df.rows) else .error (.keyError "threat_score")

/-- The chart series of app.py lines 89-93: a second
`sort_values("threat_score", ascending=False)`, then `.head(15)`, then
`.set_index("path")["threat_score"]`. Either missing column raises inside
the surrounding try block. -/
def chartSeries (df : ResultFrame) : Except PyError (List (String × Int)) := do
  let sorted ← sortValuesChecked df
  let top := sorted.take 15
  if df.hasPath then
    pure (top.map fun r => (r.path, r.threat_score))
  else
    .error (.keyError "path")

/-- One visible element produced by the script run, in emission order. -/
inductive ViewEvent where
  | rawPreview (rows : List String)
  | rankedTable (rows : List AnalysisRow)
  | chartView (points : List (String × Int))
  | chartWarning
  | selectBox (options : List String)
  | pathMissingInfo
  | uncaughtError (e : PyError)
deriving DecidableEq, Repr

/-- The display stages of app.py lines 76-138 run on the pipeline result:
the ranked table (line 76, no exception handler, so a `KeyError` there ends
the script run with an exception trace and nothing after it is emitted);
the chart (lines 88-95, a bare `except` turns any failure into the warning
of line 95); the selector (lines 107-138, guarded by
`"path" in results.columns`, the else branch emitting the info notice of
line 138). The selectbox options are `results["path"].tolist()` taken from
the unsorted frame. -/
def displayResults (df : ResultFrame) : List ViewEvent :=
  match sortValuesChecked df with
  | .error e => [.uncaughtError e]
  | .ok sorted =>
    ViewEvent.rankedTable (sorted.take 50) ::
    (match chartSeries df with
      | .ok pts => ViewEvent.chartView pts
      | .error _ => ViewEvent.chartWarning) ::
    (if df.hasPath then
      ViewEvent.selectBox (df.rows.map fun r => r.path)
    else
      ViewEvent.pathMissingInfo) :: []

/-- The script run from the raw-data preview on (app.py line 45 emits
`data.head(50)` before the pipeline runs), given the raw CSV rows and the
pipeline result frame. -/
def runScript (raw : List String) (df : ResultFrame) : List ViewEvent :=
  ViewEvent.rawPreview (raw.take 50) :: displayResults df

/-- Character-level embedding of `selected_path.split(" → ")` (app.py
line 120) for the fixed three-character separator: Python string split
scans left to right, cuts at each occurrence of the separator and keeps
empty segments, and yields the one-element list of the whole string when
the separator does not occur; the empty string yields a list holding one
empty segment. -/
def splitArrow : List Char → List (List Char)
  | ' ' :: '→' :: ' ' :: rest => [] :: splitArrow rest
  | c :: cs =>
    match splitArrow cs with
    | [] => [[c]]
    | t :: ts => (c :: t) :: ts
  | [] => [[]]

/-- The delimiter " → " of app.py line 120 as a character list. -/
def delim : List Char := [' ', '→', ' ']

/-- Joining a token list back with the " → " delimiter, the inverse
direction of `splitArrow` (Python `" → ".join`). -/
def joinArrow : List (List Char) → List Char
  | [] => []
  | [t] => t
  | t :: ts => t ++ ' ' :: '→' :: ' ' :: joinArrow ts

/-- The tokenizer applied to a path string: `selected_path.split(" → ")`. -/
def tokenize (s : String) : List String :=
  (splitArrow s.data).map fun cs => String.mk cs

/-- A networkx `DiGraph` as far as app.py uses it: an insertion-ordered
duplicate-free node list and an insertion-ordered duplicate-free list of
directed edges. -/
structure DiGraph where
  nodes : List String
  edges : List (String × String)
deriving DecidableEq, Repr

/-- The freshly constructed empty graph of `nx.DiGraph()` (app.py line 118). -/
def DiGraph.empty : DiGraph := ⟨[], []⟩

/-- networkx `G.add_node(p)` (app.py line 124): adding an existing identity
is a no-op, a new identity is appended. -/
def add_node (G : DiGraph) (p : String) : DiGraph :=
  if p ∈ G.nodes then G else { G with nodes := G.nodes ++ [p] }

/-- networkx `G.add_edge(u, v)` (app.py line 127): both endpoints are added
as nodes if absent, and the directed pair is appended unless already
present (DiGraph is a simple graph, self-loops allowed). -/
def add_edge (G : DiGraph) (u v : String) : DiGraph :=
  let G2 := add_node (add_node G u) v
  if (u, v) ∈ G2.edges then G2 else { G2 with edges := G2.edges ++ [(u, v)] }

/-- The construction loop of app.py lines 123-127: for each token in order,
`add_node`, and when a successor exists, `add_edge` to it. -/
def buildChain (G : DiGraph) : List String → DiGraph
  | [] => G
  | [p] => add_node G p
  | p :: q :: rest => buildChain (add_edge (add_node G p) p q) (q :: rest)

/-- Graph construction from a token sequence, starting from the fresh empty
graph of line 118. -/
def buildGraph (ps : List String) : DiGraph :=
  buildChain DiGraph.empty ps

/-- The literal seed passed to the layout routine on app.py line 130. -/
def layoutSeed : Nat := 42

/-- The layout call `nx.spring_layout(G, seed=42)` of app.py line 130. The
external layout routine is modelled as an arbitrary function of the graph
and the seed (networkx documents the layout as a deterministic function of
these once a seed is given); `ambient` stands for any run-varying state
such as wall-clock time or fresh entropy, which the call does not consult
because the seed is the literal constant 42. -/
def renderLayout {α : Type} (spring_layout : DiGraph → Nat → α) (G : DiGraph)
    (ambient : Nat) : α :=
  spring_layout G layoutSeed

/-- The render action of app.py lines 113-132 for a selected path string:
tokenize, build the chain graph, and invoke the layout routine with the
fixed seed. The external routine may fail (the surrounding try block of
lines 114-136 would catch it), which the `Except` result records. -/
def renderSelected {α : Type} (spring_layout : DiGraph → Nat → Except String α)
    (s : String) : Except String α :=
  spring_layout (buildGraph (tokenize s)) layoutSeed

/-- Follows the SPEC wording of the ResultRanker contract, not the code:
one insertion step of a stable descending sort, placing an element before
the first entry of equal or smaller score, so that rows of equal score
keep their original input order. Serves as the refinement target the
embedded pandas sort is proved equal to. -/
def insertDescStable (x : AnalysisRow) : List AnalysisRow → List AnalysisRow
  | [] => [x]
  | y :: ys =>
    if y.threat_score ≤ x.threat_score then x :: y :: ys else y :: insertDescStable x ys

/-- Follows the SPEC wording: descending sort by `threat_score` with ties
broken by original input order (a stable sort). -/
def specStableSortDesc (rows : List AnalysisRow) : List AnalysisRow :=
  rows.foldr insertDescStable []

theorem insertDescStable_perm (x : AnalysisRow) (l : List AnalysisRow) :
    (insertDescStable x l).Perm (x :: l) := by
  induction l with
  | nil => exact .refl _
  | cons y ys ih =>
    simp only [insertDescStable]
    split
    · exact .refl _
    · exact (ih.cons y).trans (List.Perm.swap x y ys)

theorem specStableSortDesc_perm (l : List AnalysisRow) : (specStableSortDesc l).Perm l := by
  induction l with
  | nil => exact .refl _
  | cons a l ih => exact (insertDescStable_perm a (specStableSortDesc l)).trans (ih.cons a)

theorem splitArrow_ne_nil (l : List Char) : splitArrow l ≠ [] := by
  induction l using splitArrow.induct with
  | case1 rest ih => simp [splitArrow]
  | case2 c cs hne heq ih => simp only [splitArrow]; rw [heq]; simp
  | case3 c cs hne t ts heq ih => simp only [splitArrow]; rw [heq]; simp
  | case4 => simp [splitArrow]

theorem joinArrow_splitArrow (l : List Char) : joinArrow (splitArrow l) = l := by
  induction l using splitArrow.induct with
  | case1 rest ih =>
    simp only [splitArrow]
    obtain ⟨t, ts, heq⟩ : ∃ t ts, splitArrow rest = t :: ts := by
      cases h : splitArrow rest with
      | nil => exact absurd h (splitArrow_ne_nil rest)
      | cons t ts => exact ⟨t, ts, rfl⟩
    rw [heq]
    rw [heq] at ih
    simp [joinArrow, ih]
  | case2 c cs hne heq ih => exact absurd heq (splitArrow_ne_nil cs)
  | case3 c cs hne t ts heq ih =>
    simp only [splitArrow]
    rw [heq]
    rw [heq] at ih
    cases ts with
    | nil => simp only [joinArrow] at ih ⊢; rw [ih]
    | cons u ts2 => simp only [joinArrow] at ih ⊢; rw [List.cons_append, ih]
  | case4 => simp [splitArrow, joinArrow]

theorem splitArrow_of_no_delim (l : List Char) (h : ¬ delim <:+: l) :
    splitArrow l = [l] := by
  induction l using splitArrow.induct with
  | case1 rest ih => exact absurd ⟨[], rest, rfl⟩ h
  | case2 c cs hne heq ih => exact absurd heq (splitArrow_ne_nil cs)
  | case3 c cs hne t ts heq ih =>
    have hcs : ¬ delim <:+: cs := fun hin => h (hin.trans (List.suffix_cons c cs).isInfix)
    have h2 := ih hcs
    rw [heq] at h2
    injection h2 with h3 h4
    subst h3
    subst h4
    simp only [splitArrow]
    rw [heq]
  | case4 => simp [splitArrow]

theorem add_node_of_mem {G : DiGraph} {p : String} (h : p ∈ G.nodes) :
    add_node G p = G := by
  simp [add_node, h]

theorem mem_add_node (G : DiGraph) (p : String) : p ∈ (add_node G p).nodes := by
  rw [add_node]
  split
  · assumption
  · simp

theorem add_node_edges (G : DiGraph) (p : String) : (add_node G p).edges = G.edges := by
  rw [add_node]; split <;> rfl

theorem add_node_nodes_length (G : DiGraph) (p : String) :
    (add_node G p).nodes.length ≤ G.nodes.length + 1 := by
  rw [add_node]; split <;> simp

theorem add_edge_nodes (G : DiGraph) (u v : String) :
    (add_edge G u v).nodes = (add_node (add_node G u) v).nodes := by
  rw [add_edge]; split <;> rfl

theorem add_edge_edges_length (G : DiGraph) (u v : String) :
    (add_edge G u v).edges.length ≤ G.edges.length + 1 := by
  rw [add_edge]; split <;> simp [add_node_edges]

theorem add_edge_edges_of_mem {G : DiGraph} {u v : String}
    (h : (u, v) ∈ G.edges) : (add_edge G u v).edges = G.edges := by
  rw [add_edge]
  have h2 : (u, v) ∈ (add_node (add_node G u) v).edges := by
    rw [add_node_edges, add_node_edges]; exact h
  simp only [h2, if_pos]
  rw [add_node_edges, add_node_edges]

theorem buildChain_edges_length (ps : List String) :
    ∀ G : DiGraph, (buildChain G ps).edges.length ≤ G.edges.length + ps.length := by
  induction ps with
  | nil => intro G; simp [buildChain]
  | cons p rest ih =>
    intro G
    cases rest with
    | nil => simp [buildChain, add_node_edges]
    | cons q rest2 =>
      calc (buildChain G (p :: q :: rest2)).edges.length
          = (buildChain (add_edge (add_node G p) p q) (q :: rest2)).edges.length := by
            rw [buildChain]
        _ ≤ (add_edge (add_node G p) p q).edges.length + (q :: rest2).length := ih _
        _ ≤ (add_node G p).edges.length + 1 + (q :: rest2).length :=
            Nat.add_le_add_right (add_edge_edges_length _ p q) _
        _ = G.edges.length + (p :: q :: rest2).length := by
            rw [add_node_edges]; simp only [List.length_cons]; omega

theorem buildChain_nodes_length (ps : List String) :
    ∀ (G : DiGraph) (p : String),
      (buildChain G (p :: ps)).nodes.length ≤ (add_node G p).nodes.length + ps.length := by
  induction ps with
  | nil => intro G p; simp [buildChain]
  | cons q rest ih =>
    intro G p
    have hstep : buildChain G (p :: q :: rest) =
        buildChain (add_edge (add_node G p) p q) (q :: rest) := by rw [buildChain]
    rw [hstep]
    have h1 := ih (add_edge (add_node G p) p q) q
    have hq : q ∈ (add_edge (add_node G p) p q).nodes := by
      rw [add_edge_nodes]
      exact mem_add_node _ q
    rw [add_node_of_mem hq] at h1
    have h2 : (add_edge (add_node G p) p q).nodes.length ≤ (add_node G p).nodes.length + 1 := by
      rw [add_edge_nodes, add_node_of_mem (mem_add_node G p)]
      exact add_node_nodes_length _ q
    calc (buildChain (add_edge (add_node G p) p q) (q :: rest)).nodes.length
        ≤ (add_edge (add_node G p) p q).nodes.length + rest.length := h1
      _ ≤ (add_node G p).nodes.length + 1 + rest.length := Nat.add_le_add_right h2 _
      _ = (add_node G p).nodes.length + (q :: rest).length := by
          simp only [List.length_cons]; omega

theorem buildGraph_nodes_length (ps : List String) :
    (buildGraph ps).nodes.length ≤ ps.length := by
  cases ps with
  | nil => simp [buildGraph, buildChain, DiGraph.empty]
  | cons p rest =>
    have h := buildChain_nodes_length rest DiGraph.empty p
    have h1 : (add_node DiGraph.empty p).nodes.length ≤ 1 := add_node_nodes_length _ p
    calc (buildGraph (p :: rest)).nodes.length
        ≤ (add_node DiGraph.empty p).nodes.length + rest.length := h
      _ ≤ 1 + rest.length := Nat.add_le_add_right h1 _
      _ = (p :: rest).length := by simp [Nat.add_comm]

theorem buildGraph_edges_length (ps : List String) :
    (buildGraph ps).edges.length ≤ ps.length := by
  have := buildChain_edges_length ps DiGraph.empty
  simpa [DiGraph.empty] using this

/-- C2 counterexample: the claim fails as stated. Tokenizing the empty
string does not fail with any InvalidPath condition: it produces the
one-element token list [""] whose token is empty (so tokens are neither
non-empty nor the result of a failure), and a path with an empty segment
between consecutive delimiters produces that empty segment as a token
while also leaving surrounding whitespace untrimmed. -/
theorem C2_counterexample :
    tokenize "" = [""] ∧
    tokenize "" ≠ [] ∧
    ¬ (∀ t ∈ tokenize "", t ≠ "") ∧
    tokenize " A →  → B" = [" A", "", "B"] := by
  decide

/-- C2 (amended): for every path string, tokenization always succeeds and
yields the literal segments of the string between occurrences of the
delimiter " → ", in original order, without trimming and without dropping
empty segments: the token list is never empty (an empty or whitespace-only
path yields one, possibly empty, token) and joining the tokens back with
the delimiter restores the original string. No InvalidPath condition
exists in the code. -/
theorem C2_tokenize_total (s : String) :
    tokenize s ≠ [] ∧
    joinArrow ((tokenize s).map String.data) = s.data := by
  constructor
  · intro h
    rw [tokenize, List.map_eq_nil_iff] at h
    exact splitArrow_ne_nil s.data h
  · have hmk : (tokenize s).map String.data = splitArrow s.data := by
      simp [tokenize, List.map_map, Function.comp_def]
    rw [hmk, joinArrow_splitArrow]

/-- C3 counterexample: the claim fails as stated. When the threat_score
column is absent the ranking call on app.py line 77 raises an uncaught
KeyError: the run ends with an exception trace, no targeted warning is
shown, and the chart and selector stages never execute, so the failure
does abort unrelated display paths. Only the raw preview, emitted before
the analysis, is on screen. -/
theorem C3_counterexample :
    runScript ["evt1"] ⟨true, false, [⟨"a → b", 9⟩]⟩ =
      [.rawPreview ["evt1"], .uncaughtError (.keyError "threat_score")] ∧
    ViewEvent.chartWarning ∉ runScript ["evt1"] ⟨true, false, [⟨"a → b", 9⟩]⟩ := by
  decide

/-- C3 (amended): the two missing-column conditions behave differently.
If only the path column is absent, the failure is contained: the chart
stage reports its targeted warning while the raw preview and the ranked
tabular view still render (and the selector shows its own notice). If the
threat_score column is absent, the ranking raises an uncaught error that
ends the run: everything after the raw preview is replaced by the
exception trace, with no targeted warning. -/
theorem C3_missing_field (raw : List String) (df : ResultFrame) :
    (df.hasScore = true → df.hasPath = false →
      runScript raw df =
        [.rawPreview (raw.take 50), .rankedTable (tableRows df),
         .chartWarning, .pathMissingInfo]) ∧
    (df.hasScore = false →
      runScript raw df = [.rawPreview (raw.take 50), .uncaughtError (.keyError "threat_score")]) := by
  constructor
  · intro hs hp
    simp [runScript, displayResults, sortValuesChecked, chartSeries, hp, hs, tableRows,
      Bind.bind, Except.bind]
  · intro hs
    simp [runScript, displayResults, sortValuesChecked, hs]

/-- C3 witness: the amended theorem applied to a one-row frame that has a
threat_score column but no path column. -/
theorem C3_missing_field_witness :
    runScript ["r1"] ⟨false, true, [⟨"x → y", 2⟩]⟩ =
      [.rawPreview (["r1"].take 50), .rankedTable (tableRows ⟨false, true, [⟨"x → y", 2⟩]⟩),
       .chartWarning, .pathMissingInfo] :=
  (C3_missing_field ["r1"] ⟨false, true, [⟨"x → y", 2⟩]⟩).1 rfl rfl

/-- C4 confirmed: for every result set with both columns, the chart series
is exactly the first 15 rows of the 50-row tabular view, and both
truncations are prefixes of the one descending-sorted sequence. The code
computes two separate sorts, but both are the same pure function of the
same unmodified input frame, so they produce the same sequence. -/
theorem C4_chart_prefix_of_table (df : ResultFrame) (hs : df.hasScore = true)
    (hp : df.hasPath = true) :
    chartSeries df = .ok (((tableRows df).take 15).map fun r => (r.path, r.threat_score)) ∧
    (sort_values_desc df.rows).take 15 <+: tableRows df ∧
    tableRows df <+: sort_values_desc df.rows := by
  refine ⟨?_, ?_, List.take_prefix 50 _⟩
  · simp [chartSeries, sortValuesChecked, hs, hp, tableRows, List.take_take]
  · have h15 : (sort_values_desc df.rows).take 15 = (tableRows df).take 15 := by
      simp [tableRows, List.take_take]
    rw [h15]
    exact List.take_prefix 15 _

/-- C4 witness: the theorem applied to a concrete three-row frame. -/
theorem C4_chart_prefix_of_table_witness :
    chartSeries ⟨true, true, [⟨"a", 1⟩, ⟨"b", 3⟩, ⟨"c", 2⟩]⟩ =
      .ok (((tableRows ⟨true, true, [⟨"a", 1⟩, ⟨"b", 3⟩, ⟨"c", 2⟩]⟩).take 15).map
        fun r => (r.path, r.threat_score)) ∧
    (sort_values_desc ([⟨"a", 1⟩, ⟨"b", 3⟩, ⟨"c", 2⟩] : List AnalysisRow)).take 15 <+:
      tableRows ⟨true, true, [⟨"a", 1⟩, ⟨"b", 3⟩, ⟨"c", 2⟩]⟩ ∧
    tableRows ⟨true, true, [⟨"a", 1⟩, ⟨"b", 3⟩, ⟨"c", 2⟩]⟩ <+:
      sort_values_desc [⟨"a", 1⟩, ⟨"b", 3⟩, ⟨"c", 2⟩] :=
  C4_chart_prefix_of_table ⟨true, true, [⟨"a", 1⟩, ⟨"b", 3⟩, ⟨"c", 2⟩]⟩ rfl rfl

/-- C5 confirmed: tokenizing "A → B → C" yields ["A", "B", "C"], and the
graph built from that token sequence has exactly the nodes A, B, C and
exactly the directed edges A→B and B→C. -/
theorem C5_three_token_chain :
    tokenize "A → B → C" = ["A", "B", "C"] ∧
    (buildGraph (tokenize "A → B → C")).nodes.length = 3 ∧
    (buildGraph (tokenize "A → B → C")).edges.length = 2 ∧
    buildGraph (tokenize "A → B → C") = ⟨["A", "B", "C"], [("A", "B"), ("B", "C")]⟩ := by
  decide

/-- C6 confirmed: graph construction is deduplicating and bounded. Adding a
node whose identity is already present returns the graph unchanged; adding
an edge whose ordered pair is already present leaves the edge list
unchanged; the node and edge counts of a built graph are bounded by the
token sequence length; and the sequence ["A", "A"] yields exactly one node
with one self-loop edge. -/
theorem C6_dedup_bounded :
    (∀ (G : DiGraph) (p : String), p ∈ G.nodes → add_node G p = G) ∧
    (∀ (G : DiGraph) (u v : String), (u, v) ∈ G.edges → (add_edge G u v).edges = G.edges) ∧
    (∀ ps : List String,
      (buildGraph ps).nodes.length ≤ ps.length ∧ (buildGraph ps).edges.length ≤ ps.length) ∧
    buildGraph ["A", "A"] = ⟨["A"], [("A", "A")]⟩ := by
  refine ⟨fun G p h => add_node_of_mem h, fun G u v h => add_edge_edges_of_mem h,
    fun ps => ⟨buildGraph_nodes_length ps, buildGraph_edges_length ps⟩, by decide⟩

/-- C6 witness: the deduplication clauses applied to concrete graphs. -/
theorem C6_dedup_bounded_witness :
    add_node ⟨["A"], []⟩ "A" = ⟨["A"], []⟩ ∧
    (add_edge ⟨["A"], [("A", "A")]⟩ "A" "A").edges = [("A", "A")] :=
  ⟨C6_dedup_bounded.1 ⟨["A"], []⟩ "A" (by decide),
   C6_dedup_bounded.2.1 ⟨["A"], [("A", "A")]⟩ "A" "A" (by decide)⟩

/-- C7 confirmed: for every path string in which the delimiter " → " does
not occur, tokenization succeeds with the single token equal to the whole
string, the built chain graph has exactly one node and no edges, and the
render action succeeds for any layout routine that succeeds on graphs with
a nonempty node set (the spec fixes the external routine to fail at most
on empty graphs). -/
theorem C7_single_token (s : String) (h : ¬ delim <:+: s.data) :
    tokenize s = [s] ∧
    (buildGraph (tokenize s)).nodes.length = 1 ∧
    (buildGraph (tokenize s)).edges = [] ∧
    (∀ (α : Type) (spring_layout : DiGraph → Nat → Except String α),
      (∀ H : DiGraph, H.nodes ≠ [] → ∃ y, spring_layout H layoutSeed = .ok y) →
      ∃ y, renderSelected spring_layout s = .ok y) := by
  have htok : tokenize s = [s] := by
    rw [tokenize, splitArrow_of_no_delim s.data h]
    rfl
  have hgraph : buildGraph (tokenize s) = ⟨[s], []⟩ := by
    rw [htok]
    simp [buildGraph, buildChain, add_node, DiGraph.empty]
  refine ⟨htok, by rw [hgraph]; rfl, by rw [hgraph], ?_⟩
  intro α spring_layout hok
  rw [renderSelected, hgraph]
  exact hok ⟨[s], []⟩ (by simp)

/-- C7 witness: the theorem applied to the single-token path "A" with a
concrete total layout routine. -/
theorem C7_single_token_witness :
    tokenize "A" = ["A"] ∧
    (buildGraph (tokenize "A")).nodes.length = 1 ∧
    (buildGraph (tokenize "A")).edges = [] ∧
    ∃ y, renderSelected (fun G _ => Except.ok G.nodes.length) "A" = Except.ok y := by
  have h := C7_single_token "A" (by decide)
  exact ⟨h.1, h.2.1, h.2.2.1,
    h.2.2.2 Nat (fun G _ => Except.ok G.nodes.length) (fun H _ => ⟨H.nodes.length, rfl⟩)⟩

/-- C8 counterexample: the claim fails as stated. A result set lacking the
path column and also lacking the threat_score column never reaches the
selector: the run ends at the ranking stage with an uncaught KeyError, so
no NotFound notice is shown and the ranked table does not render. -/
theorem C8_counterexample :
    displayResults ⟨false, false, [⟨"m → n", 4⟩]⟩ =
      [.uncaughtError (.keyError "threat_score")] ∧
    ViewEvent.pathMissingInfo ∉ displayResults ⟨false, false, [⟨"m → n", 4⟩]⟩ := by
  decide

/-- C8 (amended): for every result set lacking a path column but containing
a threat_score column, the display run is exactly the ranked table, the
chart warning, and the info notice that the path column was not found: the
selector control and the render action are skipped and no selectbox event
occurs, while the ranked results table still renders. -/
theorem C8_selector_notfound (df : ResultFrame) (hp : df.hasPath = false)
    (hs : df.hasScore = true) :
    displayResults df = [.rankedTable (tableRows df), .chartWarning, .pathMissingInfo] := by
  simp [displayResults, sortValuesChecked, chartSeries, hp, hs, tableRows, Bind.bind, Except.bind]

/-- C8 witness: the amended theorem applied to a concrete frame. -/
theorem C8_selector_notfound_witness :
    displayResults ⟨false, true, [⟨"u → v", 6⟩]⟩ =
      [.rankedTable (tableRows ⟨false, true, [⟨"u → v", 6⟩]⟩), .chartWarning,
       .pathMissingInfo] :=
  C8_selector_notfound ⟨false, true, [⟨"u → v", 6⟩]⟩ rfl rfl

/-- C9 confirmed: graph layout is deterministic. The layout call passes the
literal seed 42, independent of any run-varying ambient state, so for any
layout routine (networkx documents spring_layout as a deterministic
function of graph and seed) two renders of graphs with the same node set
and the same edge set produce identical placement output. -/
theorem C9_layout_deterministic (α : Type) (spring_layout : DiGraph → Nat → α)
    (G1 G2 : DiGraph) (t1 t2 : Nat) (hn : G1.nodes = G2.nodes)
    (he : G1.edges = G2.edges) :
    renderLayout spring_layout G1 t1 = renderLayout spring_layout G2 t2 := by
  cases G1
  cases G2
  cases hn
  cases he
  rfl

/-- C9 witness: two renders of the same one-node graph at different ambient
states agree. -/
theorem C9_layout_deterministic_witness :
    renderLayout (fun G _ => G.nodes) ⟨["A"], []⟩ 0 =
      renderLayout (fun G _ => G.nodes) ⟨["A"], []⟩ 99 :=
  C9_layout_deterministic (List String) (fun G _ => G.nodes) ⟨["A"], []⟩ ⟨["A"], []⟩ 0 99 rfl rfl

/-- C10 confirmed: the display stages leave the result frame unchanged; the
two sorts act on copies. In particular the selector options are the path
values of the original rows in the original pipeline output order with
duplicates preserved, while the table and the chart in the very same run
show the descending-sorted order. -/
theorem C10_selector_original_order (df : ResultFrame) (hp : df.hasPath = true)
    (hs : df.hasScore = true) :
    displayResults df =
      [.rankedTable ((sort_values_desc df.rows).take 50),
       .chartView (((sort_values_desc df.rows).take 15).map fun r => (r.path, r.threat_score)),
       .selectBox (df.rows.map fun r => r.path)] := by
  simp [displayResults, sortValuesChecked, chartSeries, hp, hs]

/-- C10 witness: the theorem applied to a frame with a duplicated path and
an input order differing from the ranked order. -/
theorem C10_selector_original_order_witness :
    displayResults ⟨true, true, [⟨"p", 1⟩, ⟨"q", 2⟩, ⟨"p", 1⟩]⟩ =
      [.rankedTable ((sort_values_desc [⟨"p", 1⟩, ⟨"q", 2⟩, ⟨"p", 1⟩]).take 50),
       .chartView (((sort_values_desc [⟨"p", 1⟩, ⟨"q", 2⟩, ⟨"p", 1⟩]).take 15).map
         fun r => (r.path, r.threat_score)),
       .selectBox (([⟨"p", 1⟩, ⟨"q", 2⟩, ⟨"p", 1⟩] : List AnalysisRow).map fun r => r.path)] :=
  C10_selector_original_order ⟨true, true, [⟨"p", 1⟩, ⟨"q", 2⟩, ⟨"p", 1⟩]⟩ rfl rfl

end MarkovApp
